import Mathlib

/-!
Verification of the LangGraph tutorial programs: the streaming joke
generator (topic refinement, streamed generation, SSE encoding), the
tool-augmented chat graph, the memory-checkpointed chat, and the console
input loop.  Each definition embeds the Python function it is named
after; external collaborators (the model backend, the tool backend, the
graph library's reducer/condition helpers and the checkpointer) are
modelled from the specification's description of their interfaces.
-/

/-- State record consumed and produced by the topic-refinement node; it
carries the `topic` field of the Python `State` dict. -/
structure RefineState where
  topic : String
deriving DecidableEq

/-- Embeds `refine_topic`: returns the state with the fixed suffix
" 和猫" appended to the topic. -/
def refine_topic (state : RefineState) : RefineState :=
  RefineState.mk (state.topic ++ " 和猫")

/-- Embeds the `StepEvent` TypedDict.  A `step` event carries the
`stage`, `status` and optional `result` keys; a `content` event carries
a text fragment in its `content` key; an `error` event carries the
failure message in its `content` key. -/
inductive StepEvent where
  | step (stage : String) (status : String) (result : Option String)
  | content (text : String)
  | error (msg : String)
deriving DecidableEq

/-- One streamed chunk of model output; mirrors `chunk.content`. -/
structure Chunk where
  content : String
deriving DecidableEq

/-- Behaviour of one call to `llm.astream`: the chunks it delivers in
order and, when it then raises an exception whose message is `msg`,
`failure = some msg` (`none` when the stream ends normally). -/
structure FragmentSource where
  chunks : List Chunk
  failure : Option String
deriving DecidableEq

/-- Embeds the f-string prompt built from the refined topic inside the
generation stage of `stream_joke_async`. -/
def generatePrompt (refined_topic : String) : String :=
  "请生成一个关于" ++ refined_topic ++ "的中文笑话，要求：\n1. 简短有趣\n2. 使用中文\n3. 直接输出内容"

/-- Event produced for one chunk inside the `async for` body: a chunk
whose content is falsy (the empty string) yields no event. -/
def contentEventOfChunk (chunk : Chunk) : Option StepEvent :=
  if chunk.content = "" then none else some (StepEvent.content chunk.content)

/-- Embeds `stream_joke_async` as the list of events the async generator
delivers to its consumer.  `model` maps the prompt to the behaviour of
`llm.astream` on it.  Python generator semantics dictate the failure
tail: when the fragment source raises mid-stream, the inner `finally`
yields the generate-complete event while the exception is propagating,
and the outer `except` then yields the error event followed by a second
generate-complete event. -/
def stream_joke_async (model : String → FragmentSource) (topic : String) : List StepEvent :=
  let refined_topic := (refine_topic (RefineState.mk topic)).topic
  let source := model (generatePrompt refined_topic)
  [StepEvent.step "refine" "start" none,
   StepEvent.step "refine" "complete" (some refined_topic),
   StepEvent.step "generate" "start" none]
  ++ source.chunks.filterMap contentEventOfChunk
  ++ [StepEvent.step "generate" "complete" none]
  ++ (match source.failure with
      | none => []
      | some e => [StepEvent.error e, StepEvent.step "generate" "complete" none])

/-- Recognises a `step(stage=generate, status=complete)` event. -/
def isGenerateComplete : StepEvent → Bool
  | StepEvent.step stage status _ => stage == "generate" && status == "complete"
  | _ => false

/-- Number of `step(generate, complete)` events in an event list. -/
def genCompleteCount (events : List StepEvent) : Nat :=
  List.countP isGenerateComplete events

/-- Texts of the `content` events of an event list, in order. -/
def contentTexts (events : List StepEvent) : List String :=
  events.filterMap (fun e =>
    match e with
    | StepEvent.content c => some c
    | _ => none)

/-- Chunks all of whose contents are non-empty produce one content event
each, in order. -/
theorem filterMap_contentEvent_eq_map (chunks : List Chunk)
    (h : ∀ c ∈ chunks, c.content ≠ "") :
    chunks.filterMap contentEventOfChunk =
      chunks.map (fun c => StepEvent.content c.content) := by
  induction chunks with
  | nil => rfl
  | cons c cs ih =>
    have hc : c.content ≠ "" := h c (List.mem_cons_self c cs)
    simp [contentEventOfChunk, hc,
      ih (fun x hx => h x (List.mem_cons_of_mem c hx))]

/-- The content events produced for a chunk list are exactly those of
its non-empty chunks, in order. -/
theorem filterMap_contentEvent_eq_filter (chunks : List Chunk) :
    chunks.filterMap contentEventOfChunk =
      (chunks.filter (fun c => !(c.content == ""))).map
        (fun c => StepEvent.content c.content) := by
  induction chunks with
  | nil => rfl
  | cons c cs ih =>
    by_cases hc : c.content = "" <;>
      simp [contentEventOfChunk, hc, ih, List.filter_cons]

/-- Content events are never counted as generate-complete steps. -/
theorem genCompleteCount_chunkEvents (chunks : List Chunk) :
    genCompleteCount (chunks.filterMap contentEventOfChunk) = 0 := by
  induction chunks with
  | nil => rfl
  | cons c cs ih =>
    by_cases hc : c.content = "" <;>
      simp [contentEventOfChunk, hc, genCompleteCount, List.countP_cons,
        isGenerateComplete] at ih ⊢ <;> simpa using ih

/-- The content texts of the chunk events are the non-empty chunk
contents. -/
theorem contentTexts_chunkEvents (chunks : List Chunk) :
    contentTexts (chunks.filterMap contentEventOfChunk) =
      (chunks.filter (fun c => !(c.content == ""))).map Chunk.content := by
  induction chunks with
  | nil => rfl
  | cons c cs ih =>
    by_cases hc : c.content = "" <;>
      simp [contentEventOfChunk, hc, contentTexts, List.filter_cons] at ih ⊢ <;>
      simpa using ih

/-- C4: the refine step appends the fixed suffix " 和猫" to the topic,
and the prompt handed to the model in the generate stage contains the
refined topic as a substring. -/
theorem C4_refine_and_prompt (t : String) :
    refine_topic (RefineState.mk t) = RefineState.mk (t ++ " 和猫") ∧
    ∃ pre post,
      generatePrompt (refine_topic (RefineState.mk t)).topic =
        pre ++ (refine_topic (RefineState.mk t)).topic ++ post := by
  refine ⟨rfl, "请生成一个关于", "的中文笑话，要求：\n1. 简短有趣\n2. 使用中文\n3. 直接输出内容", ?_⟩
  rfl

/-- C1 counterexample: with a source that raises before any fragment
(k = 0, message "boom"), the delivered stream is not the claimed
"k contents, then one error, then one generate-complete": the cleanup
block emits a generate-complete event before the error event, and a
second one follows it. -/
theorem C1_counterexample :
    stream_joke_async (fun _ => FragmentSource.mk [] (some "boom")) "兔子" ≠
      [StepEvent.step "refine" "start" none,
       StepEvent.step "refine" "complete" (some "兔子 和猫"),
       StepEvent.step "generate" "start" none,
       StepEvent.error "boom",
       StepEvent.step "generate" "complete" none] := by
  decide

/-- C1 amended: if the source raises with message `e` after producing
`k` (non-empty) fragments, the sink receives the first `k` content
events, then one generate-complete event emitted by the cleanup block,
then exactly one error event carrying `e`, then a second
generate-complete event, and no content events after the error event. -/
theorem C1_amended (topic e : String) (chunks : List Chunk)
    (h : ∀ c ∈ chunks, c.content ≠ "") :
    stream_joke_async (fun _ => FragmentSource.mk chunks (some e)) topic =
      [StepEvent.step "refine" "start" none,
       StepEvent.step "refine" "complete" (some (topic ++ " 和猫")),
       StepEvent.step "generate" "start" none]
      ++ chunks.map (fun c => StepEvent.content c.content)
      ++ [StepEvent.step "generate" "complete" none,
          StepEvent.error e,
          StepEvent.step "generate" "complete" none] := by
  simp [stream_joke_async, refine_topic, filterMap_contentEvent_eq_map chunks h]

/-- Witness for C1 amended at the concrete source yielding 你, 好 and
then raising with message "boom". -/
theorem C1_amended_witness :
    (∀ c ∈ [Chunk.mk "你", Chunk.mk "好"], c.content ≠ "") ∧
    stream_joke_async
        (fun _ => FragmentSource.mk [Chunk.mk "你", Chunk.mk "好"] (some "boom")) "兔子" =
      [StepEvent.step "refine" "start" none,
       StepEvent.step "refine" "complete" (some ("兔子" ++ " 和猫")),
       StepEvent.step "generate" "start" none]
      ++ [Chunk.mk "你", Chunk.mk "好"].map (fun c => StepEvent.content c.content)
      ++ [StepEvent.step "generate" "complete" none,
          StepEvent.error "boom",
          StepEvent.step "generate" "complete" none] :=
  ⟨by decide, C1_amended "兔子" "boom" [Chunk.mk "你", Chunk.mk "好"] (by decide)⟩

/-- C2 counterexample: on the path where the source raises before any
fragment, the stream does not contain exactly one generate-complete
event (it contains two). -/
theorem C2_counterexample :
    ¬ genCompleteCount
        (stream_joke_async (fun _ => FragmentSource.mk [] (some "boom")) "兔子") = 1 := by
  decide

/-- C2 amended: every execution that reaches the generate-start event
emits at least one generate-complete event (it is never skipped);
exactly one when the source ends normally, and exactly two when the
source raises (one from the cleanup block, one from the error
handler). -/
theorem C2_amended (topic : String) (source : FragmentSource) :
    1 ≤ genCompleteCount (stream_joke_async (fun _ => source) topic) ∧
    genCompleteCount (stream_joke_async (fun _ => source) topic) =
      (match source.failure with
       | none => 1
       | some _ => 2) := by
  cases source with
  | mk chunks failure =>
    cases failure <;>
      simp [stream_joke_async, genCompleteCount, List.countP_append,
        List.countP_cons, isGenerateComplete] <;>
      simpa [genCompleteCount] using genCompleteCount_chunkEvents chunks

/-- C3 counterexample: a fragment with empty content is dropped — no
content event is emitted for it, so not every fragment yields a content
event. -/
theorem C3_counterexample :
    StepEvent.content "" ∉
      stream_joke_async (fun _ => FragmentSource.mk [Chunk.mk ""] none) "兔子" := by
  decide

/-- C3 amended: for a successful generation over fragments F, the sink
receives exactly a refine-start step, a refine-complete step carrying
the refined topic, a generate-start step, one content event per
non-empty fragment of F in original order (empty fragments are
filtered out), and exactly one generate-complete step. -/
theorem C3_amended (topic : String) (chunks : List Chunk) :
    stream_joke_async (fun _ => FragmentSource.mk chunks none) topic =
      [StepEvent.step "refine" "start" none,
       StepEvent.step "refine" "complete" (some (topic ++ " 和猫")),
       StepEvent.step "generate" "start" none]
      ++ (chunks.filter (fun c => !(c.content == ""))).map
          (fun c => StepEvent.content c.content)
      ++ [StepEvent.step "generate" "complete" none] := by
  simp [stream_joke_async, refine_topic, filterMap_contentEvent_eq_filter]

/-- C8: whether or not the source fails, the content events delivered to
the sink are exactly the non-empty fragment contents, in their original
order; empty (falsy) fragments produce no content event. -/
theorem C8_content_filter (topic : String) (source : FragmentSource) :
    contentTexts (stream_joke_async (fun _ => source) topic) =
      (source.chunks.filter (fun c => !(c.content == ""))).map Chunk.content := by
  cases source with
  | mk chunks failure =>
    cases failure <;>
      simp [stream_joke_async, contentTexts, List.filterMap_append] <;>
      simpa [contentTexts] using contentTexts_chunkEvents chunks

/-- Hexadecimal digit character (lowercase), as produced by the JSON
encoder's unicode escapes. -/
def hexDigit (n : Nat) : Char :=
  if n < 10 then Char.ofNat (48 + n) else Char.ofNat (87 + n)

/-- Four-digit unicode escape of one UTF-16 code unit, as in
`json.dumps` with its default `ensure_ascii=True`. -/
def uEscape (n : Nat) : String :=
  "\\u" ++ String.mk
    [hexDigit (n / 4096 % 16), hexDigit (n / 256 % 16),
     hexDigit (n / 16 % 16), hexDigit (n % 16)]

/-- Escape of one character inside a JSON string, following the
`json.dumps` ASCII encoder: backslash, quote and the short control
escapes get two-character forms; other characters outside the printable
ASCII range are written as unicode escapes, non-BMP characters as a
surrogate pair. -/
def jsonEscapeChar (c : Char) : String :=
  if c = '"' then "\\\""
  else if c = '\\' then "\\\\"
  else if c = '\x08' then "\\b"
  else if c = '\x09' then "\\t"
  else if c = '\x0a' then "\\n"
  else if c = '\x0c' then "\\f"
  else if c = '\x0d' then "\\r"
  else if 32 ≤ c.toNat ∧ c.toNat ≤ 126 then String.singleton c
  else if c.toNat < 65536 then uEscape c.toNat
  else
    uEscape (55296 + (c.toNat - 65536) / 1024) ++
      uEscape (56320 + (c.toNat - 65536) % 1024)

/-- JSON string literal for `s`, in `json.dumps` ASCII form. -/
def jsonString (s : String) : String :=
  "\"" ++ String.join (s.data.map jsonEscapeChar) ++ "\""

/-- Embeds `json.dumps(event)` for a `StepEvent` dict: the keys appear
in the insertion order used at each construction site, with the
`result` key present only when it was passed. -/
def jsonDumps : StepEvent → String
  | StepEvent.step stage status none =>
      "\x7b\"type\": \"step\", \"stage\": " ++ jsonString stage ++
        ", \"status\": " ++ jsonString status ++ "\x7d"
  | StepEvent.step stage status (some r) =>
      "\x7b\"type\": \"step\", \"stage\": " ++ jsonString stage ++
        ", \"status\": " ++ jsonString status ++
        ", \"result\": " ++ jsonString r ++ "\x7d"
  | StepEvent.content c =>
      "\x7b\"type\": \"content\", \"content\": " ++ jsonString c ++ "\x7d"
  | StepEvent.error m =>
      "\x7b\"type\": \"error\", \"content\": " ++ jsonString m ++ "\x7d"

/-- Embeds `sse_generator`: for each event of the underlying stream, in
order, yield one transport unit `data: <json>` terminated by a blank
line (the inter-unit sleep is pure pacing and adds no unit). -/
def sse_generator (events : List StepEvent) : List String :=
  events.map (fun event => "data: " ++ jsonDumps event ++ "\n\n")

/-- C7: the SSE encoder emits exactly one transport unit per event of
the stream, each of the form `data: ` followed by the JSON encoding of
the event and the unit terminator, and it preserves the events'
order (the unit at every index i encodes the event at index i). -/
theorem C7_sse_encoding (events : List StepEvent) :
    (sse_generator events).length = events.length ∧
    ∀ i : Nat, (sse_generator events)[i]? =
      (events[i]?).map (fun event => "data: " ++ jsonDumps event ++ "\n\n") := by
  constructor
  · simp [sse_generator]
  · intro i
    simp [sse_generator, List.getElem?_map]

/-- One tool-call request embedded in a model reply: the tool's name and
its serialized arguments. -/
structure ToolCall where
  name : String
  args : String
deriving DecidableEq

/-- One conversation message: role tag, text content and the tool-call
requests the reply carries (empty when none are requested). -/
structure Message where
  role : String
  content : String
  tool_calls : List ToolCall
deriving DecidableEq

/-- Modelled from the spec: the graph library's `add_messages` reducer
(ConversationState invariant) — a node update is appended to the
existing message list, which is never reordered or truncated. -/
def addMessages (existing updates : List Message) : List Message :=
  existing ++ updates

/-- Embeds the `chatbot` node function: its update is the single
message the model returns for the current message list. -/
def chatbot (llm : List Message → Message) (state : List Message) : List Message :=
  [llm state]

/-- Modelled from the spec: the library's `tools_condition` routes to
the tool node exactly when the model's reply requests a tool call. -/
def tools_condition (reply : Message) : Bool :=
  !reply.tool_calls.isEmpty

/-- Modelled from the spec: the tool node invokes the tool collaborator
once per tool-call request of the reply and produces one tool-result
message per request, in request order. -/
def toolNode (tool : ToolCall → String) (reply : Message) : List Message :=
  reply.tool_calls.map (fun tc => Message.mk "tool" (tool tc) [])

/-- Embeds the compiled graph of `create_chatbot_graph`: entry at the
chatbot node; after it, `tools_condition` either ends the run or routes
to the tool node, whose results are appended before control returns to
the chatbot node.  `fuel` bounds the number of chatbot invocations;
the source enforces no bound, so exhaustion yields `none`. -/
def runChatbotGraph (llm : List Message → Message) (tool : ToolCall → String) :
    Nat → List Message → Option (List Message)
  | 0, _ => none
  | fuel + 1, msgs =>
      let reply := llm msgs
      let msgs1 := addMessages msgs (chatbot llm msgs)
      if tools_condition reply then
        runChatbotGraph llm tool fuel (addMessages msgs1 (toolNode tool reply))
      else
        some msgs1

/-- C5: after each model invocation, the run routes to the tool node
exactly when the reply requests a tool call; the tool node appends one
tool-result message per request (obtained by one tool invocation each)
and control returns to the model node; with no tool-call request the
run terminates with the reply appended. -/
theorem C5_tool_routing (llm : List Message → Message) (tool : ToolCall → String)
    (fuel : Nat) (msgs : List Message) :
    (toolNode tool (llm msgs)).length = (llm msgs).tool_calls.length ∧
    runChatbotGraph llm tool (fuel + 1) msgs =
      (if tools_condition (llm msgs) then
        runChatbotGraph llm tool fuel
          (msgs ++ [llm msgs] ++
            (llm msgs).tool_calls.map (fun tc => Message.mk "tool" (tool tc) []))
      else
        some (msgs ++ [llm msgs])) := by
  constructor
  · simp [toolNode]
  · simp [runChatbotGraph, addMessages, chatbot, toolNode, List.append_assoc]

/-- C9: one chatbot-node invocation appends exactly one message (the
model's reply to the current list) and leaves every existing message in
place. -/
theorem C9_chatbot_appends (llm : List Message → Message) (state : List Message) :
    addMessages state (chatbot llm state) = state ++ [llm state] ∧
    (addMessages state (chatbot llm state)).length = state.length + 1 ∧
    (addMessages state (chatbot llm state)).take state.length = state := by
  refine ⟨rfl, by simp [addMessages, chatbot], ?_⟩
  simp [addMessages, chatbot]

/-- Message recording one line of user input. -/
def userMessage (text : String) : Message :=
  Message.mk "user" text []

/-- Modelled from the spec: the checkpoint collaborator's
`load(thread_id)` — the state saved under the thread id, or empty when
none exists. -/
def loadThread (store : List (String × List Message)) (tid : String) : List Message :=
  match store.find? (fun entry => entry.fst == tid) with
  | some entry => entry.snd
  | none => []

/-- Modelled from the spec: the checkpoint collaborator's
`save(thread_id, state)`. -/
def saveThread (store : List (String × List Message)) (tid : String)
    (msgs : List Message) : List (String × List Message) :=
  (tid, msgs) :: store

/-- Embeds `run_conversation` under the memory checkpointer: the turn
starts from the thread's saved state, appends the new user input
message, runs the graph and saves the final state under the thread
id. -/
def runTurn (llm : List Message → Message) (tool : ToolCall → String) (fuel : Nat)
    (store : List (String × List Message)) (tid input : String) :
    Option (List (String × List Message) × List Message) :=
  match runChatbotGraph llm tool fuel
      (addMessages (loadThread store tid) [userMessage input]) with
  | none => none
  | some final => some (saveThread store tid final, final)

/-- Loading a thread right after saving it returns the saved state. -/
theorem loadThread_saveThread (store : List (String × List Message)) (tid : String)
    (msgs : List Message) : loadThread (saveThread store tid msgs) tid = msgs := by
  simp [loadThread, saveThread]

/-- A completed graph run only extends its starting message list. -/
theorem runChatbotGraph_extends (llm : List Message → Message) (tool : ToolCall → String)
    (fuel : Nat) (msgs out : List Message)
    (h : runChatbotGraph llm tool fuel msgs = some out) :
    ∃ tail, out = msgs ++ tail := by
  induction fuel generalizing msgs out with
  | zero => simp [runChatbotGraph] at h
  | succ n ih =>
    simp only [runChatbotGraph] at h
    split at h
    · obtain ⟨tail, ht⟩ := ih _ _ h
      refine ⟨chatbot llm msgs ++ toolNode tool (llm msgs) ++ tail, ?_⟩
      simp only [addMessages, List.append_assoc] at ht
      simpa [List.append_assoc] using ht
    · refine ⟨chatbot llm msgs, ?_⟩
      simp only [addMessages, Option.some.injEq] at h
      exact h.symm

/-- C6: the conversation list is append-only — any completed graph run
only extends its starting message list (never reordering or truncating
it) — and under the memory checkpointer, after a first turn on thread
`tid` ends with state `S1`, the message list the model is invoked with
at the start of the next turn on `tid` is exactly `S1`'s messages
followed by the new turn's user input. -/
theorem C6_append_only_memory (llm : List Message → Message) (tool : ToolCall → String)
    (fuel f : Nat) (store store1 : List (String × List Message))
    (tid in1 in2 : String) (S1 out msgs : List Message)
    (h : runTurn llm tool fuel store tid in1 = some (store1, S1))
    (h2 : runChatbotGraph llm tool f msgs = some out) :
    (∃ tail, out = msgs ++ tail) ∧
    addMessages (loadThread store1 tid) [userMessage in2] = S1 ++ [userMessage in2] := by
  refine ⟨runChatbotGraph_extends llm tool f msgs out h2, ?_⟩
  unfold runTurn at h
  cases hrun : runChatbotGraph llm tool fuel
      (addMessages (loadThread store tid) [userMessage in1]) with
  | none => rw [hrun] at h; exact absurd h (by simp)
  | some final =>
    rw [hrun] at h
    simp only [Option.some.injEq, Prod.mk.injEq] at h
    obtain ⟨hs, hf⟩ := h
    rw [← hs, hf, loadThread_saveThread]
    rfl

/-- Witness for C6 at a one-turn run: model always replies with an
assistant message without tool calls, thread "t1", first input "a",
second input "b". -/
theorem C6_append_only_memory_witness :
    (∃ tail, [userMessage "a", Message.mk "assistant" "hi" []] =
      [userMessage "a"] ++ tail) ∧
    addMessages
        (loadThread [("t1", [userMessage "a", Message.mk "assistant" "hi" []])] "t1")
        [userMessage "b"] =
      [userMessage "a", Message.mk "assistant" "hi" []] ++ [userMessage "b"] :=
  C6_append_only_memory (fun _ => Message.mk "assistant" "hi" []) (fun _ => "r") 1 1
    [] [("t1", [userMessage "a", Message.mk "assistant" "hi" []])] "t1" "a" "b"
    [userMessage "a", Message.mk "assistant" "hi" []]
    [userMessage "a", Message.mk "assistant" "hi" []] [userMessage "a"] rfl rfl

/-- Embeds Python `str.lower()` character-wise (`Char.toLower`); the
quit tokens are ASCII, so per-character lowercasing coincides with the
Python call on them. -/
def strLower (s : String) : String :=
  String.mk (s.data.map Char.toLower)

/-- Quit tokens recognised by the console loop. -/
def quitTokens : List String := ["quit", "exit", "q"]

/-- Fallback input used when reading from standard input raises. -/
def defaultInput : String := "What do you know about LangGraph?"

/-- Embeds the `__main__` console loop: each element of `reads` is the
outcome of one `input()` call (`Except.error` when it raises).  The
result lists the inputs handed to `stream_graph_updates`, in order: a
successful read is processed unless its lower-cased form is a quit
token (which ends the loop), and a failed read substitutes the fixed
default input, processes it once, and ends the loop. -/
def mainLoop : List (Except String String) → List String
  | [] => []
  | Except.error _ :: _ => [defaultInput]
  | Except.ok s :: rest =>
      if strLower s ∈ quitTokens then [] else s :: mainLoop rest

/-- C10: whenever a read of user input raises — after any number of
successfully processed non-quit turns — the loop substitutes the fixed
default input, processes exactly one turn with it, and exits without
consuming the remaining reads. -/
theorem C10_default_on_read_failure (pre : List String) (e : String)
    (rest : List (Except String String))
    (h : ∀ s ∈ pre, strLower s ∉ quitTokens) :
    mainLoop (pre.map Except.ok ++ Except.error e :: rest) = pre ++ [defaultInput] := by
  induction pre with
  | nil => rfl
  | cons s ss ih =>
    have hs : strLower s ∉ quitTokens := h s (List.mem_cons_self s ss)
    simp [mainLoop, hs, ih (fun x hx => h x (List.mem_cons_of_mem s hx))]

/-- Witness for C10: one successful turn ("你好"), then a failing read;
the default input is processed once and the loop ends. -/
theorem C10_default_on_read_failure_witness :
    (∀ s ∈ ["你好"], strLower s ∉ quitTokens) ∧
    mainLoop (["你好"].map Except.ok ++ Except.error "EOFError" :: []) =
      ["你好"] ++ [defaultInput] :=
  ⟨by decide, C10_default_on_read_failure ["你好"] "EOFError" [] (by decide)⟩
